import Mathlib

/-!
Shallow embedding of the PocketUniverse interception core:
the request lifecycle store (`src/lib/storage.ts`) and the injected
provider proxy / binding (the injected script).  Stateful storage is
modelled by explicit state passing: the stored document under the
`simulations` key is a `List StoredSimulation`, and each storage
operation is the pure function it performs on that document.
-/

/-- The state of a stored simulation (enum `StoredSimulationState` in storage.ts). -/
inductive StoredSimulationState where
  | Simulating
  | Revert
  | Error
  | Success
  | Rejected
  | Confirmed
deriving DecidableEq, Repr

/-- The kind of request stored (enum `StoredType` in storage.ts). -/
inductive StoredType where
  | Simulation
  | Signature
deriving DecidableEq, Repr

/-- Modelled from the spec: `Simulation` is imported by storage.ts from
models.ts, which is not among the source files; the spec describes it as an
opaque payload from the backend describing simulated effects, so it is
modelled as an opaque wrapper. -/
structure Simulation where
  payload : Nat
deriving DecidableEq, Repr

/-- Interface `StoredSimulation` of storage.ts.  The optional fields
`simulation?` and `error?` become `Option`s. -/
structure StoredSimulation where
  id : String
  type : StoredType
  state : StoredSimulationState
  simulation : Option Simulation := none
  error : Option String := none
deriving DecidableEq, Repr

/-- `addSimulation` of storage.ts: pushes a copy of the new entry onto the
end of the stored array (`simulations.push({...simulation})`). -/
def addSimulation (simulation : StoredSimulation) (simulations : List StoredSimulation) :
    List StoredSimulation :=
  simulations ++ [simulation]

/-- `completeSimulation` of storage.ts: for every stored entry whose id
matches, set `state` to `Success` and `simulation` to the given payload
(the `forEach` in-place mutation, as a map). -/
def completeSimulation (id : String) (simulation : Simulation)
    (simulations : List StoredSimulation) : List StoredSimulation :=
  simulations.map fun storedSimulation =>
    if storedSimulation.id = id then
      { storedSimulation with
          state := StoredSimulationState.Success
          simulation := some simulation }
    else storedSimulation

/-- `revertSimulation` of storage.ts: for every stored entry whose id
matches, set `state` to `Revert` and `error` to the (optional) error text. -/
def revertSimulation (id : String) (error : Option String)
    (simulations : List StoredSimulation) : List StoredSimulation :=
  simulations.map fun storedSimulation =>
    if storedSimulation.id = id then
      { storedSimulation with
          state := StoredSimulationState.Revert
          error := error }
    else storedSimulation

/-- `removeSimulation` of storage.ts: filter out every entry with the id. -/
def removeSimulation (id : String) (simulations : List StoredSimulation) :
    List StoredSimulation :=
  simulations.filter fun storedSimulation => storedSimulation.id ≠ id

/-- `updateSimulationState` of storage.ts: map over the stored entries,
replacing only the `state` field of those whose id matches. -/
def updateSimulationState (id : String) (state : StoredSimulationState)
    (simulations : List StoredSimulation) : List StoredSimulation :=
  simulations.map fun x => if x.id = id then { x with state := state } else x

/-- `updateSimulatioWithErrorMsg` of storage.ts (source spelling kept): map
over the stored entries, setting `error` and `state := Error` on those whose
id matches. -/
def updateSimulatioWithErrorMsg (id : String) (error : Option String)
    (simulations : List StoredSimulation) : List StoredSimulation :=
  simulations.map fun x =>
    if x.id = id then
      { x with error := error, state := StoredSimulationState.Error }
    else x

/-- `clearOldSimulations` of storage.ts: drop entries whose state is the
user decision `Rejected` or `Confirmed`. -/
def clearOldSimulations (simulations : List StoredSimulation) :
    List StoredSimulation :=
  simulations.filter fun x =>
    x.state ≠ StoredSimulationState.Rejected ∧
    x.state ≠ StoredSimulationState.Confirmed

/-- `simulationNeedsAction` of storage.ts. -/
def simulationNeedsAction (state : StoredSimulationState) : Bool :=
  state = StoredSimulationState.Success ||
  state = StoredSimulationState.Error ||
  state = StoredSimulationState.Simulating ||
  state = StoredSimulationState.Revert

namespace Models

/-- Modelled from the spec: the backend result kind of the `Response` type
imported by storage.ts from models.ts (not among the source files).  The
spec describes a four-way result `{kind: Success|Revert|Error|Veto}`;
storage.ts matches on `ResponseType.Error`, `ResponseType.Revert`,
`ResponseType.Success` and falls through on the remaining kind. -/
inductive ResponseType where
  | Success
  | Revert
  | Error
  | Reject
deriving DecidableEq, Repr

/-- Modelled from the spec: the backend `Response` of models.ts, a result
kind with an optional simulation payload and an optional error text. -/
structure Response where
  type : ResponseType
  simulation : Option Simulation := none
  error : Option String := none
deriving DecidableEq, Repr

end Models

/-- `fetchSimulationAndUpdate` of storage.ts, as its effect on the stored
`simulations` document.  The concurrent `Promise.all` of `addSimulation`
and the backend fetch is modelled by taking the already-resolved backend
`response` as an argument next to the added entry's id and kind (`'transaction' in args`
picks `StoredType.Simulation`, otherwise `StoredType.Signature`); the
terminal write is applied to the document the add produced.  A thrown
error is `Except.error` with the thrown message; the fall-through return
(a response kind matching none of the three tested) leaves the document
as the add left it. -/
def fetchSimulationAndUpdate (id : String) (kind : StoredType)
    (response : Models.Response) (simulations : List StoredSimulation) :
    Except String (List StoredSimulation) :=
  let afterAdd := addSimulation
    { id := id, type := kind, state := StoredSimulationState.Simulating }
    simulations
  if response.type = Models.ResponseType.Error then
    Except.ok (updateSimulatioWithErrorMsg id response.error afterAdd)
  else if response.type = Models.ResponseType.Revert then
    Except.ok (revertSimulation id response.error afterAdd)
  else if response.type = Models.ResponseType.Success then
    match response.simulation with
    | none => Except.error "Invalid state"
    | some simulation => Except.ok (completeSimulation id simulation afterAdd)
  else
    Except.ok afterAdd

/-- Interface `Settings` of storage.ts. -/
structure Settings where
  disable : Bool
deriving DecidableEq, Repr

/-- `setSettings` of storage.ts, as its effect on the stored `settings`
document: destructuring with default `{ disable: false }` when no document
is stored, then overwriting the `disable` field with the argument's. -/
def setSettings (args : Settings) (stored : Option Settings) : Settings :=
  let settings := stored.getD { disable := false }
  { settings with disable := args.disable }

/-- `getSettings` of storage.ts: the stored `settings` document, with
default `{ disable: false }` when none is stored. -/
def getSettings (stored : Option Settings) : Settings :=
  stored.getD { disable := false }

/-- The three terminal writes of the lifecycle store
(`completeSimulation`, `revertSimulation`, `updateSimulatioWithErrorMsg`),
packaged as one type so shared facts about them are stated once. -/
inductive TerminalWrite where
  | complete (simulation : Simulation)
  | revert (error : Option String)
  | errorMsg (error : Option String)
deriving DecidableEq, Repr

/-- Apply a terminal write for an id: dispatches to the storage.ts
function the write stands for. -/
def applyWrite (w : TerminalWrite) (id : String)
    (simulations : List StoredSimulation) : List StoredSimulation :=
  match w with
  | TerminalWrite.complete simulation => completeSimulation id simulation simulations
  | TerminalWrite.revert error => revertSimulation id error simulations
  | TerminalWrite.errorMsg error => updateSimulatioWithErrorMsg id error simulations

/-- The state a terminal write leaves on a matching entry. -/
def writeState : TerminalWrite → StoredSimulationState
  | TerminalWrite.complete _ => StoredSimulationState.Success
  | TerminalWrite.revert _ => StoredSimulationState.Revert
  | TerminalWrite.errorMsg _ => StoredSimulationState.Error

/-- The payload a terminal write leaves on a matching entry: the
`simulation` field for a complete, the `error` field for the other two. -/
def writePayload (w : TerminalWrite) (e : StoredSimulation) : Prop :=
  match w with
  | TerminalWrite.complete simulation => e.simulation = some simulation
  | TerminalWrite.revert error => e.error = error
  | TerminalWrite.errorMsg error => e.error = error

/-- Modelled from the spec: the `Response` enum the injected script imports
from lib/request (not among the source files): the decision the request
manager resolves with, one of `Continue`, `Reject`, `Error`. -/
inductive Response where
  | Continue
  | Reject
  | Error
deriving DecidableEq, Repr

/-- A positional parameter of an intercepted request, opaque (a transaction
payload, or the JSON string of a typed-data signature request). -/
abbrev Param := String

/-- Modelled from the spec: the structured payload `JSON.parse` yields from
the second signTypedData parameter (`domain`, `message`, `primaryType`);
the fields are opaque to the control flow modelled here. -/
structure SigPayload where
  domain : Nat := 0
  message : Nat := 0
  primaryType : Nat := 0
deriving DecidableEq, Repr

/-- A JavaScript argument to the wrapped `request`/`send`/`sendAsync` call:
an object whose `method` field and `params` field may each be absent
(`none` models the field reading as `undefined`). -/
structure RequestArg where
  method : Option String := none
  params : Option (List Param) := none
deriving DecidableEq, Repr

/-- What an invocation of the async wrapper does: invoke the captured
original call with the given argument list and return its result unchanged;
throw the EIP-1193 user-rejection error with the given message; throw a
TypeError (a field read on `undefined`); throw a SyntaxError
(`JSON.parse` failure); or throw a plain Error with the given message. -/
inductive CallOutcome where
  | forward (args : List RequestArg)
  | userRejected (message : String)
  | typeError
  | syntaxError
  | internalError (message : String)
deriving DecidableEq, Repr

/-- The observable result of one wrapper invocation: its outcome, and
whether `REQUEST_MANAGER.request` was invoked (the dispatch that creates a
StoredRequest entry). -/
structure WrapperResult where
  outcome : CallOutcome
  dispatched : Bool
deriving DecidableEq, Repr

/-- The async wrapper `pocketUniverseProxyHandler.get` returns for the
reserved props, as a function of the JavaScript argument list.  `parseJson`
models `JSON.parse` (`none` = throw SyntaxError) and `response` the awaited
`REQUEST_MANAGER.request` decision; both only matter on the paths that
reach them.  `args.head?` is `args[0]`: reading `.method` or `.params.length`
off a missing value throws a TypeError, and a present object's missing
field reads as `none`. -/
def proxyWrappedCall (parseJson : Param → Option SigPayload)
    (response : Response) (args : List RequestArg) : WrapperResult :=
  match args.head? with
  | none => { outcome := CallOutcome.typeError, dispatched := false }
  | some requestArg =>
    if requestArg.method ≠ some "eth_signTypedData_v3" ∧
        requestArg.method ≠ some "eth_signTypedData_v4" ∧
        requestArg.method ≠ some "eth_sendTransaction" then
      { outcome := CallOutcome.forward args, dispatched := false }
    else if requestArg.method = some "eth_sendTransaction" then
      match requestArg.params with
      | none => { outcome := CallOutcome.typeError, dispatched := false }
      | some params =>
        if params.length ≠ 1 then
          { outcome := CallOutcome.forward args, dispatched := false }
        else
          match response with
          | Response.Reject =>
            { outcome := CallOutcome.userRejected
                "PocketUniverse Tx Signature: User denied transaction signature."
              dispatched := true }
          | _ => { outcome := CallOutcome.forward args, dispatched := true }
    else if requestArg.method = some "eth_signTypedData_v3" ∨
        requestArg.method = some "eth_signTypedData_v4" then
      match requestArg.params with
      | none => { outcome := CallOutcome.typeError, dispatched := false }
      | some params =>
        if params.length ≠ 2 then
          { outcome := CallOutcome.forward args, dispatched := false }
        else
          match parseJson (params.getD 1 "") with
          | none => { outcome := CallOutcome.syntaxError, dispatched := false }
          | some _ =>
            match response with
            | Response.Reject =>
              { outcome := CallOutcome.userRejected
                  "PocketUniverse Message Signature: User denied message signature."
                dispatched := true }
            | _ => { outcome := CallOutcome.forward args, dispatched := true }
    else
      { outcome := CallOutcome.internalError "Show never reach here"
        dispatched := false }

/-- What the proxy handler's `get` trap returns for a property: the
reflected underlying member, or the async wrapper. -/
inductive GetResult where
  | reflected (prop : String)
  | wrapped
deriving DecidableEq, Repr

/-- The `get` trap of `pocketUniverseProxyHandler`: reflect when the
extension is disabled or the prop is not one of the three reserved call
names; otherwise capture the original call and return the async wrapper. -/
def pocketUniverseProxyHandlerGet (disable : Bool) (prop : String) : GetResult :=
  if disable then GetResult.reflected prop
  else if prop ≠ "request" ∧ prop ≠ "send" ∧ prop ≠ "sendAsync" then
    GetResult.reflected prop
  else
    GetResult.wrapped

/-- An underlying provider reference, opaque; identity is the value. -/
abbrev Provider := Nat

/-- A proxy object built by `new Proxy(currentProvider, handler)`: its
target and an allocation stamp modelling JavaScript object identity (each
`new Proxy` yields a reference distinct from every existing object). -/
structure ProxyObj where
  target : Provider
  objId : Nat
deriving DecidableEq, Repr

/-- The module-level mutable state of the injected script around
`Object.defineProperty(window, 'ethereum', ...)`: the current provider,
the cached proxy (`none` = still `undefined`), the `providerChanged` dirty
flag, and the allocator counter for fresh object identities. -/
structure BindingState where
  currentProvider : Provider
  cachedProxy : Option ProxyObj
  providerChanged : Bool
  nextObjId : Nat
deriving DecidableEq, Repr

/-- The allocator discipline: the cached proxy, when present, was
allocated before the counter's current value. -/
def bindingInv (s : BindingState) : Prop :=
  match s.cachedProxy with
  | none => True
  | some c => c.objId < s.nextObjId

/-- The `get()` accessor of the `ethereum` property: when the dirty flag is
set, build a fresh proxy around the current provider, cache it and clear
the flag; otherwise return the cached proxy unchanged. -/
def ethereumGet (s : BindingState) : Option ProxyObj × BindingState :=
  if s.providerChanged then
    let proxy : ProxyObj := { target := s.currentProvider, objId := s.nextObjId }
    (some proxy,
      { currentProvider := s.currentProvider
        cachedProxy := some proxy
        providerChanged := false
        nextObjId := s.nextObjId + 1 })
  else
    (s.cachedProxy, s)

/-- The `set(newProvider)` accessor of the `ethereum` property: record the
new provider and set the dirty flag; the proxy rebuild is deferred. -/
def ethereumSet (newProvider : Provider) (s : BindingState) : BindingState :=
  { s with currentProvider := newProvider, providerChanged := true }

/-- The module-level initial state of the injected script: provider as
found on the page, no cached proxy yet, dirty flag set. -/
def initialBindingState : BindingState :=
  { currentProvider := 0, cachedProxy := none, providerChanged := true, nextObjId := 0 }

/-- The pointwise update a terminal write performs on a matching entry. -/
def writeFun : TerminalWrite → StoredSimulation → StoredSimulation
  | TerminalWrite.complete simulation, x =>
      { x with state := StoredSimulationState.Success, simulation := some simulation }
  | TerminalWrite.revert error, x =>
      { x with state := StoredSimulationState.Revert, error := error }
  | TerminalWrite.errorMsg error, x =>
      { x with error := error, state := StoredSimulationState.Error }

theorem applyWrite_eq_map (w : TerminalWrite) (id : String)
    (simulations : List StoredSimulation) :
    applyWrite w id simulations =
      simulations.map fun x => if x.id = id then writeFun w x else x := by
  cases w <;> rfl

theorem writeFun_id (w : TerminalWrite) (x : StoredSimulation) :
    (writeFun w x).id = x.id := by
  cases w <;> rfl

theorem writeFun_type (w : TerminalWrite) (x : StoredSimulation) :
    (writeFun w x).type = x.type := by
  cases w <;> rfl

theorem writeFun_idem (w : TerminalWrite) (x : StoredSimulation) :
    writeFun w (writeFun w x) = writeFun w x := by
  cases w <;> rfl

theorem writeFun_state (w : TerminalWrite) (x : StoredSimulation) :
    (writeFun w x).state = writeState w := by
  cases w <;> rfl

theorem writeFun_payload (w : TerminalWrite) (x : StoredSimulation) :
    writePayload w (writeFun w x) := by
  cases w <;> simp [writePayload, writeFun]

/-- C7: the terminal-state transitions (`completeSimulation`,
`revertSimulation`, `updateSimulatioWithErrorMsg`) are idempotent per id;
a later terminal write to the same id determines the state and payload of
every matching entry (last-write-wins); and when no entry carries the id
the document is left unchanged. -/
theorem terminalWrite_algebra (w w' : TerminalWrite) (id : String)
    (simulations : List StoredSimulation) :
    applyWrite w id (applyWrite w id simulations) = applyWrite w id simulations
  ∧ (∀ e ∈ applyWrite w' id (applyWrite w id simulations),
      e.id = id → e.state = writeState w' ∧ writePayload w' e)
  ∧ ((∀ e ∈ simulations, e.id ≠ id) → applyWrite w id simulations = simulations) := by
  refine ⟨?_, ?_, ?_⟩
  · rw [applyWrite_eq_map, applyWrite_eq_map, List.map_map]
    refine List.map_congr_left ?_
    intro x _
    by_cases hx : x.id = id
    · simp [Function.comp, hx, writeFun_id, writeFun_idem]
    · simp [Function.comp, hx]
  · intro e he hid
    rw [applyWrite_eq_map w'] at he
    obtain ⟨x, _, hxe⟩ := List.mem_map.mp he
    by_cases hx : x.id = id
    · rw [if_pos hx] at hxe
      subst hxe
      exact ⟨writeFun_state w' x, writeFun_payload w' x⟩
    · rw [if_neg hx] at hxe
      subst hxe
      exact absurd hid hx
  · intro hnone
    rw [applyWrite_eq_map]
    have : ∀ x ∈ simulations, (if x.id = id then writeFun w x else x) = x := by
      intro x hx
      rw [if_neg (hnone x hx)]
    rw [List.map_congr_left this, List.map_id']

theorem terminalWrite_algebra_witness :
    (∀ e ∈ ([{ id := "b", type := StoredType.Signature,
               state := StoredSimulationState.Simulating }] : List StoredSimulation),
        e.id ≠ "a")
  ∧ (applyWrite (TerminalWrite.complete { payload := 3 }) "a"
      (applyWrite (TerminalWrite.complete { payload := 3 }) "a"
        [{ id := "b", type := StoredType.Signature,
           state := StoredSimulationState.Simulating }]) =
     applyWrite (TerminalWrite.complete { payload := 3 }) "a"
        [{ id := "b", type := StoredType.Signature,
           state := StoredSimulationState.Simulating }])
  ∧ (applyWrite (TerminalWrite.complete { payload := 3 }) "a"
        [{ id := "b", type := StoredType.Signature,
           state := StoredSimulationState.Simulating }] =
      [{ id := "b", type := StoredType.Signature,
         state := StoredSimulationState.Simulating }]) := by
  refine ⟨by decide, ?_, ?_⟩
  · exact (terminalWrite_algebra (TerminalWrite.complete { payload := 3 })
      (TerminalWrite.complete { payload := 3 }) "a" _).1
  · exact (terminalWrite_algebra (TerminalWrite.complete { payload := 3 })
      (TerminalWrite.complete { payload := 3 }) "a" _).2.2 (by decide)

/-- C10: with no stored settings document, `getSettings` returns
`{disable: false}` and `setSettings` starts from `{disable: false}` before
applying the given flag: interception is enabled by default. -/
theorem settings_default_enabled :
    getSettings none = { disable := false }
  ∧ ∀ args : Settings, setSettings args none = { disable := args.disable } := by
  refine ⟨rfl, ?_⟩
  intro args
  rfl

/-- C9: `updateSimulationState` changes only the `state` field of matching
entries: the document keeps its length, and pairing each old entry with the
new entry at the same position shows id, type, simulation and error are
preserved on every entry, non-matching entries are untouched, and matching
entries get exactly the new state. -/
theorem updateSimulationState_frame (simulations : List StoredSimulation)
    (id : String) (state : StoredSimulationState) :
    (updateSimulationState id state simulations).length = simulations.length
  ∧ ∀ p ∈ simulations.zip (updateSimulationState id state simulations),
      p.2.id = p.1.id ∧ p.2.type = p.1.type ∧
      p.2.simulation = p.1.simulation ∧ p.2.error = p.1.error ∧
      p.2.state = if p.1.id = id then state else p.1.state := by
  constructor
  · simp [updateSimulationState]
  · induction simulations with
    | nil => simp [updateSimulationState]
    | cons x xs ih =>
      intro p hp
      simp only [updateSimulationState, List.map_cons, List.zip_cons_cons,
        List.mem_cons] at hp
      rcases hp with rfl | hp
      · by_cases hx : x.id = id <;> simp [hx]
      · exact ih p hp

theorem updateSimulationState_frame_witness :
    (({ id := "a", type := StoredType.Simulation,
        state := StoredSimulationState.Success,
        simulation := some { payload := 1 } },
      { id := "a", type := StoredType.Simulation,
        state := StoredSimulationState.Confirmed,
        simulation := some { payload := 1 } }) ∈
        ([{ id := "a", type := StoredType.Simulation,
            state := StoredSimulationState.Success,
            simulation := some { payload := 1 } },
          { id := "b", type := StoredType.Signature,
            state := StoredSimulationState.Revert, error := some "e" }] :
          List StoredSimulation).zip
          (updateSimulationState "a" StoredSimulationState.Confirmed
            [{ id := "a", type := StoredType.Simulation,
               state := StoredSimulationState.Success,
               simulation := some { payload := 1 } },
             { id := "b", type := StoredType.Signature,
               state := StoredSimulationState.Revert, error := some "e" }]))
  ∧ ((StoredSimulation.mk "a" StoredType.Simulation
        StoredSimulationState.Confirmed (some { payload := 1 }) none).id =
      (StoredSimulation.mk "a" StoredType.Simulation
        StoredSimulationState.Success (some { payload := 1 }) none).id ∧
     (StoredSimulation.mk "a" StoredType.Simulation
        StoredSimulationState.Confirmed (some { payload := 1 }) none).type =
      (StoredSimulation.mk "a" StoredType.Simulation
        StoredSimulationState.Success (some { payload := 1 }) none).type ∧
     (StoredSimulation.mk "a" StoredType.Simulation
        StoredSimulationState.Confirmed (some { payload := 1 }) none).simulation =
      (StoredSimulation.mk "a" StoredType.Simulation
        StoredSimulationState.Success (some { payload := 1 }) none).simulation ∧
     (StoredSimulation.mk "a" StoredType.Simulation
        StoredSimulationState.Confirmed (some { payload := 1 }) none).error =
      (StoredSimulation.mk "a" StoredType.Simulation
        StoredSimulationState.Success (some { payload := 1 }) none).error ∧
     (StoredSimulation.mk "a" StoredType.Simulation
        StoredSimulationState.Confirmed (some { payload := 1 }) none).state =
       if (StoredSimulation.mk "a" StoredType.Simulation
            StoredSimulationState.Success (some { payload := 1 }) none).id = "a"
       then StoredSimulationState.Confirmed
       else (StoredSimulation.mk "a" StoredType.Simulation
              StoredSimulationState.Success (some { payload := 1 }) none).state) := by
  refine ⟨by decide, ?_⟩
  exact (updateSimulationState_frame
    [{ id := "a", type := StoredType.Simulation,
       state := StoredSimulationState.Success,
       simulation := some { payload := 1 } },
     { id := "b", type := StoredType.Signature,
       state := StoredSimulationState.Revert, error := some "e" }]
    "a" StoredSimulationState.Confirmed).2
    (StoredSimulation.mk "a" StoredType.Simulation
        StoredSimulationState.Success (some { payload := 1 }) none,
      StoredSimulation.mk "a" StoredType.Simulation
        StoredSimulationState.Confirmed (some { payload := 1 }) none)
    (by decide)

/-- C2, counterexample: `fetchSimulationAndUpdate` does raise past its own
boundary: on a backend response of kind Success carrying no simulation
payload it throws `Invalid state` instead of degrading to an Error state
write. -/
theorem fetchSimulationAndUpdate_throws_on_payloadless_success :
    fetchSimulationAndUpdate "a" StoredType.Simulation
      { type := Models.ResponseType.Success } [] =
      Except.error "Invalid state" := by
  rfl

/-- C2, amended: `fetchSimulationAndUpdate` completes without throwing for
every backend response except exactly one case: a response of kind Success
with no simulation payload, where it throws. -/
theorem fetchSimulationAndUpdate_ok_characterization (id : String)
    (kind : StoredType) (response : Models.Response)
    (simulations : List StoredSimulation) :
    (∃ l, fetchSimulationAndUpdate id kind response simulations = Except.ok l) ↔
      ¬(response.type = Models.ResponseType.Success ∧
        response.simulation = none) := by
  obtain ⟨t, sim, err⟩ := response
  cases t <;> cases sim <;> simp [fetchSimulationAndUpdate]

/-- The stored documents reachable through the store's operations as the
program drives them: the dispatcher adds fresh `Simulating` entries with no
payloads and performs one terminal write per dispatch while the entry is
still `Simulating`; the external UI applies the state-only transition with
the user decisions `Confirmed`/`Rejected`; entries are removed singly or by
the `clearOldSimulations` sweep. -/
inductive DispatcherReachable : List StoredSimulation → Prop where
  | nil : DispatcherReachable []
  | add (id : String) (kind : StoredType) {l : List StoredSimulation} :
      DispatcherReachable l →
      DispatcherReachable (addSimulation
        { id := id, type := kind, state := StoredSimulationState.Simulating } l)
  | terminal (w : TerminalWrite) (id : String) {l : List StoredSimulation} :
      DispatcherReachable l →
      (∀ e ∈ l, e.id = id → e.state = StoredSimulationState.Simulating) →
      DispatcherReachable (applyWrite w id l)
  | userDecision (id : String) (state : StoredSimulationState)
      {l : List StoredSimulation} :
      (state = StoredSimulationState.Confirmed ∨
        state = StoredSimulationState.Rejected) →
      DispatcherReachable l →
      DispatcherReachable (updateSimulationState id state l)
  | remove (id : String) {l : List StoredSimulation} :
      DispatcherReachable l → DispatcherReachable (removeSimulation id l)
  | clear {l : List StoredSimulation} :
      DispatcherReachable l → DispatcherReachable (clearOldSimulations l)

/-- The per-entry payload discipline the store maintains: a `Simulating`
entry carries no payloads, a `Success` entry no error text, a
`Revert`/`Error` entry no simulation payload, and an entry moved to a user
decision state carries at most one of the two. -/
def entryInv (e : StoredSimulation) : Prop :=
  match e.state with
  | StoredSimulationState.Simulating => e.simulation = none ∧ e.error = none
  | StoredSimulationState.Success => e.error = none
  | StoredSimulationState.Revert => e.simulation = none
  | StoredSimulationState.Error => e.simulation = none
  | StoredSimulationState.Confirmed => e.simulation = none ∨ e.error = none
  | StoredSimulationState.Rejected => e.simulation = none ∨ e.error = none

theorem entryInv_atMostOne {e : StoredSimulation} (h : entryInv e) :
    e.simulation = none ∨ e.error = none := by
  unfold entryInv at h
  cases hs : e.state <;> rw [hs] at h
  · exact Or.inl h.1
  · exact Or.inl h
  · exact Or.inl h
  · exact Or.inr h
  · exact h
  · exact h

theorem reachable_entryInv {l : List StoredSimulation}
    (h : DispatcherReachable l) : ∀ e ∈ l, entryInv e := by
  induction h with
  | nil => intro e he; exact absurd he (List.not_mem_nil e)
  | add id kind _ ih =>
    intro e he
    rw [addSimulation, List.mem_append] at he
    rcases he with he | he
    · exact ih e he
    · rw [List.mem_singleton] at he
      subst he
      exact ⟨rfl, rfl⟩
  | terminal w id _ hsim ih =>
    intro e he
    rw [applyWrite_eq_map] at he
    obtain ⟨x, hx, hxe⟩ := List.mem_map.mp he
    by_cases hid : x.id = id
    · rw [if_pos hid] at hxe
      subst hxe
      obtain ⟨hsimNone, herrNone⟩ :
          x.simulation = none ∧ x.error = none := by
        have hst := hsim x hx hid
        have := ih x hx
        unfold entryInv at this
        rw [hst] at this
        exact this
      cases w with
      | complete simulation => exact herrNone
      | revert error => exact hsimNone
      | errorMsg error => exact hsimNone
    · rw [if_neg hid] at hxe
      subst hxe
      exact ih x hx
  | userDecision id state hstate _ ih =>
    intro e he
    rw [updateSimulationState] at he
    obtain ⟨x, hx, hxe⟩ := List.mem_map.mp he
    by_cases hid : x.id = id
    · rw [if_pos hid] at hxe
      subst hxe
      have hx1 := entryInv_atMostOne (ih x hx)
      rcases hstate with rfl | rfl
      · exact hx1
      · exact hx1
    · rw [if_neg hid] at hxe
      subst hxe
      exact ih x hx
  | remove id _ ih =>
    intro e he
    exact ih e (List.mem_of_mem_filter he)
  | clear _ ih =>
    intro e he
    exact ih e (List.mem_of_mem_filter he)

/-- C3, counterexample: an entry produced by the store's own flow — added,
completed, then moved to `Confirmed` by the state-only user-decision
transition — still carries its simulation payload while its state is not
`Success`, so `simulationResult` is not present only when the state is
`Success`. -/
theorem confirmed_entry_keeps_simulation :
    updateSimulationState "a" StoredSimulationState.Confirmed
      (completeSimulation "a" { payload := 7 }
        (addSimulation
          { id := "a", type := StoredType.Simulation,
            state := StoredSimulationState.Simulating } [])) =
      [{ id := "a", type := StoredType.Simulation,
         state := StoredSimulationState.Confirmed,
         simulation := some { payload := 7 } }]
  ∧ StoredSimulationState.Confirmed ≠ StoredSimulationState.Success := by
  exact ⟨rfl, by decide⟩

/-- C3, amended: for every entry reachable through the store's operations
as the program drives them (fresh `Simulating` adds, one terminal write per
id applied while the entry is `Simulating`, the state-only
`Confirmed`/`Rejected` user decision, removals and the cleanup sweep), at
most one of {simulationResult, errorMessage} is set, and simulationResult
is present only when the state is `Success` or a user decision state
(`Confirmed`/`Rejected`) reached from it. -/
theorem reachable_payload_discipline {l : List StoredSimulation}
    (h : DispatcherReachable l) :
    ∀ e ∈ l,
      (e.simulation = none ∨ e.error = none) ∧
      (e.simulation ≠ none →
        e.state = StoredSimulationState.Success ∨
        e.state = StoredSimulationState.Confirmed ∨
        e.state = StoredSimulationState.Rejected) := by
  intro e he
  have hinv := reachable_entryInv h e he
  refine ⟨entryInv_atMostOne hinv, ?_⟩
  intro hsim
  unfold entryInv at hinv
  cases hs : e.state <;> rw [hs] at hinv
  · exact absurd hinv.1 hsim
  · exact absurd hinv hsim
  · exact absurd hinv hsim
  · exact Or.inl rfl
  · exact Or.inr (Or.inr rfl)
  · exact Or.inr (Or.inl rfl)

theorem reachable_payload_discipline_witness :
    DispatcherReachable
      (completeSimulation "a" { payload := 2 }
        (addSimulation
          { id := "a", type := StoredType.Simulation,
            state := StoredSimulationState.Simulating } []))
  ∧ (∀ e ∈ completeSimulation "a" { payload := 2 }
        (addSimulation
          { id := "a", type := StoredType.Simulation,
            state := StoredSimulationState.Simulating } []),
      (e.simulation = none ∨ e.error = none) ∧
      (e.simulation ≠ none →
        e.state = StoredSimulationState.Success ∨
        e.state = StoredSimulationState.Confirmed ∨
        e.state = StoredSimulationState.Rejected)) := by
  have hreach : DispatcherReachable
      (completeSimulation "a" { payload := 2 }
        (addSimulation
          { id := "a", type := StoredType.Simulation,
            state := StoredSimulationState.Simulating } [])) := by
    have h1 : DispatcherReachable
        (addSimulation
          { id := "a", type := StoredType.Simulation,
            state := StoredSimulationState.Simulating } []) :=
      DispatcherReachable.add "a" StoredType.Simulation DispatcherReachable.nil
    have h2 := DispatcherReachable.terminal
      (TerminalWrite.complete { payload := 2 }) "a" h1 (by decide)
    exact h2
  exact ⟨hreach, reachable_payload_discipline hreach⟩

/-- C8: the async wrapper reads the `method` field of its first argument
before any forwarding decision, so an invocation with no arguments throws
a TypeError (field read on `undefined`) instead of forwarding to the
underlying provider, whatever the backend decision would have been. -/
theorem wrapper_empty_args_typeError (parseJson : Param → Option SigPayload)
    (response : Response) :
    proxyWrappedCall parseJson response [] =
      { outcome := CallOutcome.typeError, dispatched := false } := by
  rfl

/-- C5: a call whose request method is none of the three reserved names is
forwarded with the identical argument list and its result returned
unchanged, with no dispatch to the request manager (so no StoredRequest
entry is created). -/
theorem nonReserved_method_passthrough (parseJson : Param → Option SigPayload)
    (response : Response) (a : RequestArg) (rest : List RequestArg)
    (h3 : a.method ≠ some "eth_signTypedData_v3")
    (h4 : a.method ≠ some "eth_signTypedData_v4")
    (ht : a.method ≠ some "eth_sendTransaction") :
    proxyWrappedCall parseJson response (a :: rest) =
      { outcome := CallOutcome.forward (a :: rest), dispatched := false } := by
  simp [proxyWrappedCall, h3, h4, ht]

theorem nonReserved_method_passthrough_witness :
    (RequestArg.mk (some "eth_getBalance") none).method ≠
        some "eth_signTypedData_v3"
  ∧ (RequestArg.mk (some "eth_getBalance") none).method ≠
        some "eth_signTypedData_v4"
  ∧ (RequestArg.mk (some "eth_getBalance") none).method ≠
        some "eth_sendTransaction"
  ∧ proxyWrappedCall (fun _ => none) Response.Continue
        [RequestArg.mk (some "eth_getBalance") none] =
      { outcome := CallOutcome.forward [RequestArg.mk (some "eth_getBalance") none]
        dispatched := false } := by
  refine ⟨by decide, by decide, by decide, ?_⟩
  exact nonReserved_method_passthrough (fun _ => none) Response.Continue
    (RequestArg.mk (some "eth_getBalance") none) [] (by decide) (by decide)
    (by decide)

/-- C1: an intercepted `eth_sendTransaction` call with exactly one
positional parameter, on a backend `Reject` decision, throws the
user-rejected-request error with exactly the fixed transaction message and
never invokes the captured original call. -/
theorem sendTransaction_reject_blocks (parseJson : Param → Option SigPayload)
    (a : RequestArg) (rest : List RequestArg) (params : List Param)
    (hm : a.method = some "eth_sendTransaction")
    (hp : a.params = some params)
    (hl : params.length = 1) :
    proxyWrappedCall parseJson Response.Reject (a :: rest) =
      { outcome := CallOutcome.userRejected
          "PocketUniverse Tx Signature: User denied transaction signature."
        dispatched := true } := by
  simp [proxyWrappedCall, hm, hp, hl]

theorem sendTransaction_reject_blocks_witness :
    (RequestArg.mk (some "eth_sendTransaction") (some ["tx"])).method =
        some "eth_sendTransaction"
  ∧ (RequestArg.mk (some "eth_sendTransaction") (some ["tx"])).params =
        some ["tx"]
  ∧ (["tx"] : List Param).length = 1
  ∧ proxyWrappedCall (fun _ => none) Response.Reject
        [RequestArg.mk (some "eth_sendTransaction") (some ["tx"])] =
      { outcome := CallOutcome.userRejected
          "PocketUniverse Tx Signature: User denied transaction signature."
        dispatched := true } := by
  refine ⟨by decide, by decide, by decide, ?_⟩
  exact sendTransaction_reject_blocks (fun _ => none)
    (RequestArg.mk (some "eth_sendTransaction") (some ["tx"])) [] ["tx"]
    rfl rfl rfl

/-- C6: an intercepted call whose positional-parameter count differs from
the expected shape (`eth_sendTransaction` with a parameter list of length
other than 1; `eth_signTypedData_v3`/`v4` with a parameter list of length
other than 2) is forwarded unchanged with no dispatch, whatever the backend
decision would have been. -/
theorem argCount_mismatch_failopen (parseJson : Param → Option SigPayload)
    (response : Response) (a : RequestArg) (rest : List RequestArg)
    (m : String) (params : List Param)
    (hm : a.method = some m) (hp : a.params = some params)
    (h : (m = "eth_sendTransaction" ∧ params.length ≠ 1) ∨
         ((m = "eth_signTypedData_v3" ∨ m = "eth_signTypedData_v4") ∧
          params.length ≠ 2)) :
    proxyWrappedCall parseJson response (a :: rest) =
      { outcome := CallOutcome.forward (a :: rest), dispatched := false } := by
  rcases h with ⟨rfl, hl⟩ | ⟨hv, hl⟩
  · simp [proxyWrappedCall, hm, hp, hl]
  · rcases hv with rfl | rfl <;> simp [proxyWrappedCall, hm, hp, hl]

theorem argCount_mismatch_failopen_witness :
    (RequestArg.mk (some "eth_sendTransaction") (some [])).method =
        some "eth_sendTransaction"
  ∧ (RequestArg.mk (some "eth_sendTransaction") (some [])).params =
        some ([] : List Param)
  ∧ (("eth_sendTransaction" = "eth_sendTransaction" ∧
        ([] : List Param).length ≠ 1) ∨
     (("eth_sendTransaction" = "eth_signTypedData_v3" ∨
        "eth_sendTransaction" = "eth_signTypedData_v4") ∧
        ([] : List Param).length ≠ 2))
  ∧ proxyWrappedCall (fun _ => none) Response.Reject
        [RequestArg.mk (some "eth_sendTransaction") (some [])] =
      { outcome := CallOutcome.forward
          [RequestArg.mk (some "eth_sendTransaction") (some [])]
        dispatched := false } := by
  refine ⟨by decide, by decide, by decide, ?_⟩
  exact argCount_mismatch_failopen (fun _ => none) Response.Reject
    (RequestArg.mk (some "eth_sendTransaction") (some [])) []
    "eth_sendTransaction" [] rfl rfl (Or.inl ⟨rfl, by decide⟩)

/-- C4: reading the `ethereum` property twice without an intervening set
returns the identical wrapper both times (and leaves the binding state
unchanged); after `set(newProvider)`, the next get returns a new wrapper
(distinct from the one returned before) around `newProvider`, and a
further get without another set returns that same new wrapper. -/
theorem ethereum_binding_caching (s : BindingState) (hInv : bindingInv s)
    (newProvider : Provider) :
    (ethereumGet (ethereumGet s).2).1 = (ethereumGet s).1
  ∧ (ethereumGet (ethereumGet s).2).2 = (ethereumGet s).2
  ∧ (∃ p : ProxyObj,
      (ethereumGet (ethereumSet newProvider (ethereumGet s).2)).1 = some p ∧
      p.target = newProvider)
  ∧ (ethereumGet (ethereumSet newProvider (ethereumGet s).2)).1 ≠
      (ethereumGet s).1
  ∧ (ethereumGet (ethereumGet (ethereumSet newProvider
        (ethereumGet s).2)).2).1 =
      (ethereumGet (ethereumSet newProvider (ethereumGet s).2)).1 := by
  cases hc : s.providerChanged with
  | true =>
    refine ⟨?_, ?_, ?_, ?_, ?_⟩
    · simp [ethereumGet, hc]
    · simp [ethereumGet, hc]
    · exact ⟨{ target := newProvider, objId := s.nextObjId + 1 },
        by simp [ethereumGet, ethereumSet, hc], rfl⟩
    · simp only [ethereumGet, ethereumSet, hc]
      simp only [if_true, if_false, Bool.true_eq_false, ite_true]
      intro h
      have := (Option.some_inj.mp h)
      have hobj := congrArg ProxyObj.objId this
      simp at hobj
    · simp [ethereumGet, ethereumSet, hc]
  | false =>
    refine ⟨?_, ?_, ?_, ?_, ?_⟩
    · simp [ethereumGet, hc]
    · simp [ethereumGet, hc]
    · exact ⟨{ target := newProvider, objId := s.nextObjId },
        by simp [ethereumGet, ethereumSet, hc], rfl⟩
    · simp only [ethereumGet, ethereumSet, hc]
      simp only [if_false, ite_true, Bool.false_eq_true, ite_false]
      intro h
      unfold bindingInv at hInv
      cases hcp : s.cachedProxy with
      | none => rw [hcp] at h; exact Option.noConfusion h
      | some c =>
        rw [hcp] at h hInv
        have := Option.some_inj.mp h
        have hobj := congrArg ProxyObj.objId this
        simp at hobj
        omega
    · simp [ethereumGet, ethereumSet, hc]

theorem ethereum_binding_caching_witness :
    bindingInv initialBindingState
  ∧ ((ethereumGet (ethereumGet initialBindingState).2).1 =
        (ethereumGet initialBindingState).1
    ∧ (ethereumGet (ethereumGet initialBindingState).2).2 =
        (ethereumGet initialBindingState).2
    ∧ (∃ p : ProxyObj,
        (ethereumGet (ethereumSet 5 (ethereumGet initialBindingState).2)).1 =
          some p ∧ p.target = 5)
    ∧ (ethereumGet (ethereumSet 5 (ethereumGet initialBindingState).2)).1 ≠
        (ethereumGet initialBindingState).1
    ∧ (ethereumGet (ethereumGet (ethereumSet 5
          (ethereumGet initialBindingState).2)).2).1 =
        (ethereumGet (ethereumSet 5 (ethereumGet initialBindingState).2)).1) := by
  refine ⟨trivial, ?_⟩
  exact ethereum_binding_caching initialBindingState trivial 5
